import Mathlib

/-!
# LBW: the Interix filesystem node and the time system calls

A shallow embedding of `src/filesystem/InterixVFSNode.cc` and of
`src/syscalls/time.cc`.

The host operating system is an oracle: every host call is answered by a
function of the events issued so far, so a host may answer the same call
differently at different moments.  Every operation threads a `World` holding
the chronological trace of lock and host events, the process working
directory, the host `errno` and the number of node objects constructed.
A C++ `throw` of an `int` is the `error` branch of the result.

The time handlers are stateless: each takes the answers of the host calls it
makes as arguments and gives back the returned or thrown value together with
the content of its output structure.
-/

namespace LBW

/-! ## Host interface -/

/-- Host `errno` value ENOENT (from the host's `errno.h`). -/
def ENOENT : Nat := 2
/-- Host `errno` value EISDIR (from the host's `errno.h`). -/
def EISDIR : Nat := 21
/-- Host `errno` value EINVAL (from the host's `errno.h`). -/
def EINVAL : Nat := 22
/-- Host `errno` value ETXTBUSY (from the host's `errno.h`). -/
def ETXTBUSY : Nat := 26

/-- The host calls issued by the node operations, with their arguments. -/
inductive HostCall where
  | chdir (path : String)
  | lstat (name : String)
  | open_ (name : String) (flags mode : Int)
  | opendir (name : String)
  | readdir
  | closedir
  | readlink (name : String)
  | mkdir (name : String) (mode : Int)
  | rmdir (name : String)
  | mknod (name : String) (mode dev : Int)
  | access (name : String) (mode : Int)
  | rename (old new : String)
  | chmod (name : String) (mode : Int)
  | chown (name : String) (owner group : Int)
  | link (existing new : String)
  | unlink (name : String)
  | symlink (target name : String)
  | time
  | utime (name : String) (actime modtime : Int)
  deriving DecidableEq

/-- File types answered by `VFSNode::GetFileType`; only `DIRECTORY` is
inspected by the code under study. -/
inductive FileType where
  | DIRECTORY
  | other (tag : Nat)
  deriving DecidableEq

/-- One entry of the trace: taking or releasing the global lock, a host call,
or a query of `VFSNode::GetFileType`. -/
inductive Event where
  | lock
  | unlock
  | host (c : HostCall)
  | getFileType (name : String)
  deriving DecidableEq

/-- The host as an oracle over the history of events.
`call` gives the return value of a host call and the `errno` the host leaves
when that value is `-1`; `entries` is the content of the directory stream
opened by `opendir`; `linkText` is the buffer filled by `readlink`;
`fileType` answers `VFSNode::GetFileType`, a method of the base class that is
not part of the sources and is therefore taken as a parameter (it may throw). -/
structure Host where
  call : List Event → HostCall → Int × Nat
  entries : List Event → List String
  linkText : List Event → String → String
  fileType : List Event → String → Except Nat FileType

/-- Process-wide state threaded through every operation. -/
structure World where
  trace : List Event
  cwd : String
  errno : Nat
  nodes : Nat

/-- A computation that may throw an `int` and that updates the world. -/
def M (α : Type) : Type := World → Except Nat α × World

/-- Return a value, leaving the world as it is. -/
def M.pure {α : Type} (a : α) : M α := fun w => (.ok a, w)

/-- Sequence two computations; a thrown value skips the continuation. -/
def M.bind {α β : Type} (m : M α) (f : α → M β) : M β := fun w =>
  match m w with
  | (.ok a, w1) => f a w1
  | (.error e, w1) => (.error e, w1)

instance : Monad M where
  pure := M.pure
  bind := M.bind

/-- The C++ statement `throw e`. -/
def throwInt {α : Type} (e : Nat) : M α := fun w => (.error e, w)

/-- Read the host `errno`. -/
def getErrno : M Nat := fun w => (.ok w.errno, w)

/-- Issue a host call other than `chdir`: the call is recorded, its return
value is handed back, and `errno` is set when the call returns `-1`. -/
def hostCall (h : Host) (c : HostCall) : M Int := fun w =>
  let a := h.call w.trace c
  (.ok a.1, { w with trace := w.trace ++ [.host c],
                      errno := if a.1 = -1 then a.2 else w.errno })

/-- The host call `chdir(path)`: as `hostCall`, and when the call does not
return `-1` the working directory becomes `path`. -/
def chdir (h : Host) (path : String) : M Int := fun w =>
  let a := h.call w.trace (.chdir path)
  (.ok a.1, { w with trace := w.trace ++ [.host (.chdir path)],
                      errno := if a.1 = -1 then a.2 else w.errno,
                      cwd := if a.1 = -1 then w.cwd else path })

/-- Modelled from the spec: `CheckError` is declared in `globals.h`, which is
not part of the sources.  The error-translation helper turns the failure of a
host operation (return value `-1`) into a thrown signal carrying the host's
last-error value. -/
def CheckError (i : Int) : M Unit := fun w =>
  if i = -1 then (.error w.errno, w) else (.ok (), w)

/-- Modelled from the spec: `RAIILock` is declared in `globals.h`, which is
not part of the sources.  The global lock is acquired where the object is
declared and held for the rest of the enclosing operation; it is released
when the operation is left, by return or by throw. -/
def RAIILock {α : Type} (body : M α) : M α := fun w =>
  let r := body { w with trace := w.trace ++ [.lock] }
  (r.1, { r.2 with trace := r.2.trace ++ [.unlock] })

/-! ## Nodes -/

/-- A node of the Interix backend: the parent pointer and the name kept by the
base class `VFSNode`, and the resolved host path `_path`. -/
inductive VFSNode where
  | mk (parent : Option VFSNode) (name : String) (path : String)

/-- Modelled from the spec: `VFSNode::GetParent` belongs to the base class,
which is not part of the sources; it hands back the stored back-reference to
the parent (a null pointer is `none`). -/
def VFSNode.GetParent : VFSNode → Option VFSNode
  | .mk p _ _ => p

/-- The accessor `GetRealPath` for the field `_path`. -/
def VFSNode.GetRealPath : VFSNode → String
  | .mk _ _ p => p

/-- The test `!path.empty() && (path[0] == '/')` of `init`. -/
def isAbsolute (path : String) : Bool :=
  match path.data with
  | c :: _ => c == '/'
  | [] => false

/-- The value `init` assigns to `_path`. -/
def initPath (parent : VFSNode) (path : String) : String :=
  if isAbsolute path then path
  else parent.GetRealPath ++ "/" ++ path

/-- Method `InterixVFSNode::init(parent, name, path)` followed by the completion of
the object.  The parent is a node of this backend, so the assertion on the
downcast holds. -/
def init (h : Host) (parent : VFSNode) (name path : String) : M VFSNode := do
  let _path := initPath parent path
  let i ← chdir h _path
  CheckError i
  pure (VFSNode.mk (some parent) name _path)

/-- The expression `new InterixVFSNode(parent, name)`: one more node object is
constructed, and the two-argument constructor runs `init(parent, name, name)`. -/
def newInterixVFSNode (h : Host) (parent : VFSNode) (name : String) : M VFSNode :=
  fun w => init h parent name name { w with nodes := w.nodes + 1 }

/-- Method `InterixVFSNode::setup()`. -/
def setup (h : Host) (this : VFSNode) : M Unit := do
  let i ← chdir h this.GetRealPath
  CheckError i

/-- Method `InterixVFSNode::setup(name, e)`. -/
def setupName (h : Host) (this : VFSNode) (name : String) (e : Nat) : M Unit :=
  if name = "" then throwInt ENOENT
  else if name = "." ∨ name = ".." then throwInt e
  else setup h this

/-- Method `InterixVFSNode::Traverse(name)`; the result is a reference, `none` for
a null one. -/
def Traverse (h : Host) (this : VFSNode) (name : String) : M (Option VFSNode) :=
  if name = "." ∨ name = "" then pure (some this)
  else if name = ".." then pure this.GetParent
  else do
    let n ← newInterixVFSNode h this name
    pure (some n)

/-- Method `InterixVFSNode::Rename(from, other, to)`; `other` is a node of this
backend, so the assertion on the downcast holds. -/
def Rename (h : Host) (this : VFSNode) (from_ : String) (other : VFSNode)
    (to_ : String) : M Unit :=
  if from_ = "." ∨ from_ = ".." ∨ from_ = "" ∨ to_ = "." ∨ to_ = ".." ∨ to_ = "" then
    throwInt EINVAL
  else RAIILock do
    let toabs := other.GetRealPath ++ "/" ++ to_
    setup h this
    let i ← hostCall h (.rename from_ toabs)
    if i = -1 then throwInt (← getErrno)

/-- Method `InterixVFSNode::StatFile(name, st)`; the buffer `st` is not modelled.
For `..` the call is forwarded to the parent as `StatFile(".")`, which for a
parent of this backend is the second branch run on the parent; a call through
a null parent reference is not modelled and leaves no event. -/
def StatFile (h : Host) (this : VFSNode) (name : String) : M Unit :=
  if name = ".." then
    match this.GetParent with
    | some p => do
        setup h p
        let i ← hostCall h (.lstat ".")
        CheckError i
    | none => pure ()
  else do
    setup h this
    let i ← hostCall h (.lstat name)
    CheckError i

/-- The call `GetFileType(name)` of the base class, answered by the host
oracle and recorded as one event. -/
def GetFileType (h : Host) (name : String) : M FileType := fun w =>
  (h.fileType w.trace name, { w with trace := w.trace ++ [.getFileType name] })

/-- Method `InterixVFSNode::OpenFile(name, flags, mode)`; the result is the host
descriptor wrapped by the returned `RealFD`. -/
def OpenFile (h : Host) (this : VFSNode) (name : String) (flags mode : Int) : M Int :=
  RAIILock do
    setupName h this name EISDIR
    let t ← GetFileType h name
    if t = FileType.DIRECTORY then
      throwInt EISDIR
    else do
      let newfd ← hostCall h (.open_ name flags mode)
      if newfd = -1 then
        throwInt (← getErrno)
      else
        pure newfd

/-- The loop of `Enumerate`: one `readdir` per entry of the stream and a last
one that hands back the null pointer ending the loop.  The stream is the
finite list the host holds for the directory. -/
def readLoop (h : Host) : List String → M (List String)
  | [] => do
      let _ ← hostCall h .readdir
      pure []
  | n :: rest => do
      let _ ← hostCall h .readdir
      let d ← readLoop h rest
      pure (n :: d)

/-- Method `InterixVFSNode::Enumerate()`. -/
def Enumerate (h : Host) (this : VFSNode) : M (List String) :=
  RAIILock do
    setup h this
    let _ ← hostCall h (.opendir ".")
    let es ← (fun w => (Except.ok (h.entries w.trace), w) : M (List String))
    let d ← readLoop h es
    let _ ← hostCall h .closedir
    pure d

/-- Method `InterixVFSNode::ReadLink(name)`.  The default value of the second
argument of `setup(name, e)` is declared in the header, which is not part of
the sources; it is the parameter `e0`. -/
def ReadLink (h : Host) (e0 : Nat) (this : VFSNode) (name : String) : M String :=
  RAIILock do
    setupName h this name e0
    let i ← hostCall h (.readlink name)
    if i = -1 then
      throwInt (← getErrno)
    else
      (fun w => (Except.ok (h.linkText w.trace name), w) : M String)

/-- Method `InterixVFSNode::MkDir(name, mode)`. -/
def MkDir (h : Host) (e0 : Nat) (this : VFSNode) (name : String) (mode : Int) : M Unit :=
  RAIILock (
    if name = "." then pure ()
    else do
      setupName h this name e0
      let i ← hostCall h (.mkdir name mode)
      if i = -1 then
        throwInt (← getErrno))

/-- Method `InterixVFSNode::RmDir(name)`. -/
def RmDir (h : Host) (e0 : Nat) (this : VFSNode) (name : String) : M Unit :=
  RAIILock do
    setupName h this name e0
    let i ← hostCall h (.rmdir name)
    if i = -1 then
      throwInt (← getErrno)

/-- Method `InterixVFSNode::Mknod(name, mode, dev)`. -/
def Mknod (h : Host) (e0 : Nat) (this : VFSNode) (name : String) (mode dev : Int) : M Unit :=
  RAIILock do
    setupName h this name e0
    let i ← hostCall h (.mknod name mode dev)
    CheckError i

/-- Method `InterixVFSNode::Access(name, mode)`. -/
def Access (h : Host) (this : VFSNode) (name : String) (mode : Int) : M Int :=
  RAIILock do
    setup h this
    let i ← hostCall h (.access (if name = "" then "." else name) mode)
    if i = -1 then
      throwInt (← getErrno)
    else
      pure i

/-- Method `InterixVFSNode::Chmod(name, mode)`. -/
def Chmod (h : Host) (this : VFSNode) (name : String) (mode : Int) : M Unit :=
  RAIILock do
    setup h this
    let i ← hostCall h (.chmod name mode)
    if i = -1 then
      throwInt (← getErrno)

/-- Method `InterixVFSNode::Chown(name, owner, group)`; `FakeRoot` is the global
option `Options.FakeRoot`. -/
def Chown (h : Host) (FakeRoot : Bool) (this : VFSNode) (name : String)
    (owner group : Int) : M Unit :=
  RAIILock do
    setup h this
    if FakeRoot then
      pure ()
    else do
      let i ← hostCall h (.chown name owner group)
      if i = -1 then
        throwInt (← getErrno)

/-- Method `InterixVFSNode::Link(name, targetnode, target)`; `targetnode` is a node
of this backend.  The host call is `link(toabs, name)`. -/
def Link (h : Host) (this : VFSNode) (name : String) (targetnode : VFSNode)
    (target : String) : M Unit :=
  if target = "." ∨ target = ".." ∨ target = "" ∨
      name = "." ∨ name = ".." ∨ name = "" then
    throwInt EINVAL
  else RAIILock do
    let toabs := targetnode.GetRealPath ++ "/" ++ target
    setup h this
    let i ← hostCall h (.link toabs name)
    CheckError i

/-- Method `InterixVFSNode::Unlink(name)`. -/
def Unlink (h : Host) (e0 : Nat) (this : VFSNode) (name : String) : M Unit :=
  RAIILock do
    setupName h this name e0
    let i ← hostCall h (.unlink name)
    if i = -1 then
      if (← getErrno) ≠ ETXTBUSY then
        throwInt (← getErrno)

/-- Method `InterixVFSNode::Symlink(name, target)`. -/
def Symlink (h : Host) (e0 : Nat) (this : VFSNode) (name target : String) : M Unit :=
  RAIILock do
    setupName h this name e0
    let i ← hostCall h (.symlink target name)
    CheckError i

/-- Method `InterixVFSNode::Utimes(name, times)`; `times` is `none` for a null
pointer and otherwise holds `times[0].tv_sec` and `times[1].tv_sec`. -/
def Utimes (h : Host) (this : VFSNode) (name : String) (times : Option (Int × Int)) :
    M Unit :=
  RAIILock do
    setup h this
    let ub ← (match times with
      | none => do
          let t ← hostCall h .time
          pure (t, t)
      | some (a, m) => pure (a, m) : M (Int × Int))
    let i ← hostCall h (.utime name ub.1 ub.2)
    if i = -1 then
      throwInt (← getErrno)

/-! ## Time system calls -/

/-- The host structure `timeval`, as filled by `gettimeofday`. -/
structure timeval where
  tv_sec : Int
  tv_usec : Int
  deriving DecidableEq

/-- The structure `timespec` exchanged with the emulated process. -/
structure timespec where
  tv_sec : Int
  tv_nsec : Int
  deriving DecidableEq

/-- The macro `LINUX_CLOCK_REALTIME`. -/
def LINUX_CLOCK_REALTIME : Int := 0
/-- The macro `LINUX_CLOCK_MONOTONIC`. -/
def LINUX_CLOCK_MONOTONIC : Int := 1

/-- Conversion of an integer to a signed machine integer of `bits` bits
(two's complement wrap-around). -/
def toSigned (bits : Nat) (x : Int) : Int :=
  (x + 2 ^ (bits - 1)) % 2 ^ bits - 2 ^ (bits - 1)

/-- Handler `compat_sys_clock_gettime`.  `gettimeofday` is the answer of the host to
the call `gettimeofday(&it, NULL)`: its return value and the structure `it`.
`which_clock` is the signed first argument and `lt` the content of the
output structure before the call; the result pairs the returned or thrown
value with the content of the output structure afterwards.

The product `it.tv_usec * 1000` is computed in the host type `long`, which is
declared by the host and not in the sources: its width in bits is the
parameter `lbits`, and a product that is not representable wraps around. -/
def compat_sys_clock_gettime (lbits : Nat) (gettimeofday : Int × timeval)
    (which_clock : Int) (lt : timespec) : Except Nat Int × timespec :=
  if which_clock = LINUX_CLOCK_REALTIME ∨ which_clock = LINUX_CLOCK_MONOTONIC then
    if gettimeofday.1 = -1 then
      (.error EINVAL, lt)
    else
      (.ok 0, { tv_sec := gettimeofday.2.tv_sec,
                tv_nsec := toSigned lbits (gettimeofday.2.tv_usec * 1000) })
  else
    (.error EINVAL, lt)

/-- Handler `compat_sys_clock_getres`.  `CLOCKS_PER_SEC` is the host macro of that
name, positive on every host.  The quotient is at most `10^9` and fits every
`long`. -/
def compat_sys_clock_getres (CLOCKS_PER_SEC : Nat) (which_clock : Int)
    (lt : timespec) : Except Nat Int × timespec :=
  if which_clock = LINUX_CLOCK_REALTIME ∨ which_clock = LINUX_CLOCK_MONOTONIC then
    (.ok 0, { tv_sec := 0, tv_nsec := ((1000000000 / CLOCKS_PER_SEC : Nat) : Int) })
  else
    (.error EINVAL, lt)

/-- The conversion `(u64) x` of a signed host integer. -/
def toU64 (x : Int) : Nat := (x % 2 ^ 64).toNat

/-- The expression `(u64)t.tv_sec * 1000000LL + (u64)t.tv_usec`, computed in
64-bit unsigned arithmetic. -/
def micros (t : timeval) : Nat :=
  ((toU64 t.tv_sec * 1000000) % 2 ^ 64 + toU64 t.tv_usec) % 2 ^ 64

/-- The value `delta_us = now_us - start_us`, a 64-bit unsigned difference. -/
def delta_us (start now : timeval) : Nat :=
  (micros now + 2 ^ 64 - micros start) % 2 ^ 64

/-- Handler `compat_sys_nanosleep`.  `start` and `now` are what the host
stores at the first and at the second `gettimeofday`, `select` gives the
return value of the wait for the timeout it is handed, `errno` is the host `errno` read by
the `throw`, `req` is the requested duration and `rem` the content of the
remaining-time location (`none` for a null pointer).

The type `time_t` of the field `tv_sec` is declared by the host and not in
the sources: its width in bits is the parameter `tbits`, and the quotient, a
64-bit unsigned value, is converted to it on assignment.  (The structure is
the one of the emulated process, which the source names `compat_timespec`:
there `tbits` is 32.)  The value assigned to `tv_nsec` is below `10^9` and
fits every `long`. -/
def compat_sys_nanosleep (tbits : Nat) (start : timeval) (select : timeval → Int)
    (errno : Nat) (now : timeval) (req : timespec) (rem : Option timespec) :
    Except Nat Int × Option timespec :=
  let tv : timeval := { tv_sec := req.tv_sec, tv_usec := Int.tdiv req.tv_nsec 1000 }
  let result := select tv
  let out : Option timespec :=
    match rem with
    | none => none
    | some _ =>
        some { tv_sec := toSigned tbits ((delta_us start now / 1000000 : Nat) : Int),
               tv_nsec := ((delta_us start now % 1000000 * 1000 : Nat) : Int) }
  (if result = -1 then .error errno else .ok 0, out)

/-! ## Vocabulary of the statements -/

/-- The names `.`, `..` and the empty string. -/
def isSpecial (s : String) : Prop := s = "." ∨ s = ".." ∨ s = ""

instance (s : String) : Decidable (isSpecial s) := by
  unfold isSpecial; infer_instance

/-- The events an operation appended to the trace of the world it started in. -/
def newEvents {α : Type} (w : World) (r : Except Nat α × World) : List Event :=
  r.2.trace.drop w.trace.length

/-- Whether an event is the host call `open`. -/
def isOpen : Event → Bool
  | .host (.open_ _ _ _) => true
  | _ => false

/-- A trace read from lock depth `d` keeps the scoping discipline when every
host call and every file-type query in it is issued at a positive depth,
that is, while the lock is held. -/
def disciplined : Nat → List Event → Bool
  | _, [] => true
  | d, .lock :: es => disciplined (d + 1) es
  | d, .unlock :: es => disciplined (d - 1) es
  | d, .host _ :: es => decide (0 < d) && disciplined d es
  | d, .getFileType _ :: es => decide (0 < d) && disciplined d es

/-- A list of events without lock events. -/
def flat (evs : List Event) : Prop := ∀ e ∈ evs, e ≠ .lock ∧ e ≠ .unlock

/-- A computation that only appends events other than lock events. -/
def AppendsFlat {α : Type} (m : M α) : Prop :=
  ∀ w, ∃ evs, (m w).2.trace = w.trace ++ evs ∧ flat evs

/-- A host on which every call succeeds with return value `0`. -/
def hostOk : Host where
  call := fun _ _ => (0, 0)
  entries := fun _ => []
  linkText := fun _ _ => ""
  fileType := fun _ _ => .ok (.other 0)

/-- A host on which every call fails with `ENOENT`. -/
def hostFail : Host where
  call := fun _ _ => (-1, ENOENT)
  entries := fun _ => []
  linkText := fun _ _ => ""
  fileType := fun _ _ => .ok (.other 0)

/-- A host on which `unlink` fails with `ETXTBUSY` and every other call
succeeds. -/
def hostBusy : Host where
  call := fun _ c => match c with
    | .unlink _ => (-1, ETXTBUSY)
    | _ => (0, 0)
  entries := fun _ => []
  linkText := fun _ _ => ""
  fileType := fun _ _ => .ok (.other 0)

/-- A host on which every call succeeds and every name is a directory. -/
def hostDir : Host where
  call := fun _ _ => (0, 0)
  entries := fun _ => []
  linkText := fun _ _ => ""
  fileType := fun _ _ => .ok .DIRECTORY

/-- The initial world: empty trace, working directory `/`. -/
def w0 : World := ⟨[], "/", 0, 0⟩

/-- A node for `/home` without a parent. -/
def homeNode : VFSNode := .mk none "home" "/home"

/-- A node for `/tmp` without a parent. -/
def tmpNode : VFSNode := .mk none "tmp" "/tmp"

/-! ## Evaluation lemmas -/

theorem bind_def {α β : Type} (m : M α) (f : α → M β) : (m >>= f) = M.bind m f := rfl

theorem pure_def {α : Type} (a : α) : (pure a : M α) = M.pure a := rfl

theorem setupName_of_not_special (h : Host) (this : VFSNode) (name : String) (e : Nat)
    (hn : ¬ isSpecial name) : setupName h this name e = setup h this := by
  unfold isSpecial at hn
  unfold setupName
  rw [if_neg (by tauto), if_neg (by tauto)]

theorem setup_eval (h : Host) (this : VFSNode) (w : World) :
    setup h this w =
      (if (h.call w.trace (.chdir this.GetRealPath)).1 = -1
        then .error (h.call w.trace (.chdir this.GetRealPath)).2 else .ok (),
       { trace := w.trace ++ [.host (.chdir this.GetRealPath)],
         cwd := if (h.call w.trace (.chdir this.GetRealPath)).1 = -1
                  then w.cwd else this.GetRealPath,
         errno := if (h.call w.trace (.chdir this.GetRealPath)).1 = -1
                  then (h.call w.trace (.chdir this.GetRealPath)).2 else w.errno,
         nodes := w.nodes }) := by
  simp only [setup, bind_def, M.bind, chdir, CheckError]
  split <;> simp_all

/-! ## Rename and Link: invalid names -/

/-- C1: `Rename(from, other, to)` and `Link(name, targetnode, target)` with a
node of the same backend fail with `EINVAL` whenever one of the two names is
`.`, `..` or empty, and leave the world as it was: the lock is not taken and
no host call is recorded. -/
theorem Rename_Link_special_EINVAL (h : Host) (this other : VFSNode) (a b : String)
    (w : World) (hs : isSpecial a ∨ isSpecial b) :
    Rename h this a other b w = (.error EINVAL, w) ∧
    Link h this a other b w = (.error EINVAL, w) := by
  unfold isSpecial at hs
  constructor
  · unfold Rename
    rw [if_pos (by tauto)]; rfl
  · unfold Link
    rw [if_pos (by tauto)]; rfl

/-- C1, at concrete names: a valid source with the destination `..`. -/
theorem Rename_Link_special_EINVAL_witness :
    (isSpecial "a" ∨ isSpecial "..") ∧
    Rename hostOk homeNode "a" tmpNode ".." w0 = (.error EINVAL, w0) ∧
    Link hostOk homeNode "a" tmpNode ".." w0 = (.error EINVAL, w0) :=
  ⟨by decide, Rename_Link_special_EINVAL hostOk homeNode tmpNode "a" ".." w0 (by decide)⟩

/-! ## Traverse -/

/-- C2: `Traverse(".")` and `Traverse("")` return the node itself and
`Traverse("..")` returns its parent; the world is unchanged, so no node is
constructed, no host call is issued and the working directory stays. -/
theorem Traverse_dot_empty_dotdot (h : Host) (n : VFSNode) (w : World) :
    Traverse h n "." w = (.ok (some n), w) ∧
    Traverse h n "" w = (.ok (some n), w) ∧
    Traverse h n ".." w = (.ok n.GetParent, w) := by
  refine ⟨?_, ?_, ?_⟩ <;> simp [Traverse, pure_def, M.pure]

/-- C3 as stated fails: traversing `/home` by the name `/etc` succeeds and the
child resolves to `/etc`, not to `/home` joined with the name. -/
theorem Traverse_absolute_name_counterexample :
    Traverse hostOk homeNode "/etc" w0 =
      (.ok (some (.mk (some homeNode) "/etc" "/etc")),
       ⟨[.host (.chdir "/etc")], "/etc", 0, 1⟩) ∧
    (VFSNode.mk (some homeNode) "/etc" "/etc").GetRealPath ≠
      homeNode.GetRealPath ++ "/" ++ "/etc" :=
  ⟨rfl, by decide⟩

/-- C3, amended: for a name other than `.`, `..` and the empty string,
`Traverse` succeeds when the probing `chdir` does not fail; whenever it
succeeds, the returned child has the node as parent and resolves to the node
path joined with `/` and the name when the name does not begin with `/`, and
to the name itself when it does, and the working directory is the child path. -/
theorem Traverse_child_path (h : Host) (n : VFSNode) (name : String) (w : World)
    (hname : ¬ isSpecial name) :
    ((h.call w.trace (.chdir (initPath n name))).1 ≠ -1 →
      Traverse h n name w =
        (.ok (some (.mk (some n) name (initPath n name))),
         ⟨w.trace ++ [.host (.chdir (initPath n name))], initPath n name, w.errno,
          w.nodes + 1⟩)) ∧
    (∀ (r : Option VFSNode) (w1 : World), Traverse h n name w = (.ok r, w1) →
      r = some (.mk (some n) name (initPath n name)) ∧ w1.cwd = initPath n name) ∧
    (isAbsolute name = false → initPath n name = n.GetRealPath ++ "/" ++ name) ∧
    (isAbsolute name = true → initPath n name = name) := by
  unfold isSpecial at hname
  have e1 : ¬ (name = "." ∨ name = "") := by tauto
  have e2 : ¬ name = ".." := by tauto
  simp only [Traverse, if_neg e1, if_neg e2, bind_def, M.bind, newInterixVFSNode, init,
    chdir, CheckError, pure_def, M.pure]
  refine ⟨?_, ?_, ?_, ?_⟩
  · intro hc; simp [hc]
  · intro r w1 hok
    by_cases hc : (h.call w.trace (.chdir (initPath n name))).1 = -1
    · simp [hc] at hok
    · simp [hc] at hok
      exact ⟨hok.1.symm, by rw [← hok.2]⟩
  · intro ha; simp [initPath, ha]
  · intro ha; simp [initPath, ha]

/-- C3, amended, at a concrete input: `/home` traversed by `etc` on a host
where `chdir` succeeds gives a child for `/home/etc`. -/
theorem Traverse_child_path_witness :
    Traverse hostOk homeNode "etc" w0 =
      (.ok (some (.mk (some homeNode) "etc" "/home/etc")),
       ⟨[.host (.chdir "/home/etc")], "/home/etc", 0, 1⟩) :=
  (Traverse_child_path hostOk homeNode "etc" w0 (by decide)).1 (by decide)

/-! ## Chown under the fake-superuser option -/

/-- C4 as stated fails: with `FakeRoot` set, on a host where the scoping
`chdir` fails with `ENOENT`, `Chown` fails with `ENOENT`. -/
theorem Chown_FakeRoot_counterexample :
    Chown hostFail true homeNode "f" 0 0 w0 =
      (.error ENOENT,
       ⟨[.lock, .host (.chdir "/home"), .unlock], "/", ENOENT, 0⟩) :=
  rfl

/-- C4, amended: with `FakeRoot` set, `Chown` takes the lock, scopes to the
node path and issues no other host call, in particular no `chown`; it
reports success when the scoping `chdir` succeeds and fails with the host
error of `chdir` when that fails. -/
theorem Chown_FakeRoot (h : Host) (this : VFSNode) (name : String) (owner group : Int)
    (w : World) :
    (Chown h true this name owner group w).2.trace =
      w.trace ++ [.lock, .host (.chdir this.GetRealPath), .unlock] ∧
    ((h.call (w.trace ++ [.lock]) (.chdir this.GetRealPath)).1 ≠ -1 →
      (Chown h true this name owner group w).1 = .ok ()) ∧
    ((h.call (w.trace ++ [.lock]) (.chdir this.GetRealPath)).1 = -1 →
      (Chown h true this name owner group w).1 =
        .error (h.call (w.trace ++ [.lock]) (.chdir this.GetRealPath)).2) := by
  simp only [Chown, RAIILock, bind_def, M.bind, setup_eval]
  by_cases hc : (h.call (w.trace ++ [.lock]) (.chdir this.GetRealPath)).1 = -1
  · simp [hc]
  · simp [hc, pure_def, M.pure]

/-! ## Unlink -/

/-- C5: for a name other than `.`, `..` and the empty string, on a node whose
scoping `chdir` succeeds, `Unlink` issues exactly one `unlink` and nothing
after it; it succeeds if and only if the host `unlink` succeeded or failed
with `ETXTBUSY`, and for every other host error it fails with that error. -/
theorem Unlink_result (h : Host) (e0 : Nat) (this : VFSNode) (name : String) (w : World)
    (hname : ¬ isSpecial name)
    (hcd : (h.call (w.trace ++ [.lock]) (.chdir this.GetRealPath)).1 ≠ -1) :
    (Unlink h e0 this name w).2.trace =
      w.trace ++ [.lock, .host (.chdir this.GetRealPath), .host (.unlink name), .unlock] ∧
    ((Unlink h e0 this name w).1 = .ok () ↔
      ((h.call (w.trace ++ [.lock, .host (.chdir this.GetRealPath)]) (.unlink name)).1 ≠ -1 ∨
       (h.call (w.trace ++ [.lock, .host (.chdir this.GetRealPath)]) (.unlink name)).2
         = ETXTBUSY)) ∧
    ((h.call (w.trace ++ [.lock, .host (.chdir this.GetRealPath)]) (.unlink name)).1 = -1 →
     (h.call (w.trace ++ [.lock, .host (.chdir this.GetRealPath)]) (.unlink name)).2
         ≠ ETXTBUSY →
      (Unlink h e0 this name w).1 =
        .error (h.call (w.trace ++ [.lock, .host (.chdir this.GetRealPath)])
          (.unlink name)).2) := by
  simp only [Unlink, RAIILock, bind_def, M.bind, setupName_of_not_special h this name e0 hname,
    setup_eval, if_neg hcd, hostCall, getErrno, throwInt, pure_def, M.pure,
    List.append_assoc, List.cons_append, List.nil_append]
  generalize (h.call (w.trace ++ [.lock, .host (.chdir this.GetRealPath)]) (.unlink name)) = u
  by_cases h1 : u.1 = -1
  · by_cases h2 : u.2 = ETXTBUSY
    · simp [h1, h2, bind_def, M.bind, pure_def, M.pure, getErrno]
    · simp [h1, h2, bind_def, M.bind, pure_def, M.pure, throwInt, getErrno]
  · simp [h1, bind_def, M.bind, pure_def, M.pure]

/-- C5, at a concrete input: on a host whose `unlink` fails with `ETXTBUSY`,
`Unlink` of `prog` in `/home` succeeds after a single `unlink`. -/
theorem Unlink_result_witness :
    (Unlink hostBusy EINVAL homeNode "prog" w0).2.trace =
      [.lock, .host (.chdir "/home"), .host (.unlink "prog"), .unlock] ∧
    (Unlink hostBusy EINVAL homeNode "prog" w0).1 = .ok () :=
  have t := Unlink_result hostBusy EINVAL homeNode "prog" w0 (by decide) (by decide)
  ⟨t.1, t.2.1.mpr (Or.inr rfl)⟩


/-! ## OpenFile -/

theorem newEvents_append {α : Type} (w : World) (r : Except Nat α × World) (evs : List Event)
    (hr : r.2.trace = w.trace ++ evs) : newEvents w r = evs := by
  simp [newEvents, hr]

/-- C6: `OpenFile` fails with `EISDIR` for `.` and `..` and with `ENOENT` for
the empty name, having only taken and released the lock; for any other name
whose scoping succeeded and whose file type is reported as `DIRECTORY` it
fails with `EISDIR` after the scoping `chdir` and the file-type query; and
whenever a host `open` is among the events of the operation, the name is
none of the three special names and its file type was reported as something
other than `DIRECTORY`; for such a name the `open` is issued, once, after the
scoping and the file-type query. -/
theorem OpenFile_never_opens_directory (h : Host) (this : VFSNode) (name : String)
    (flags mode : Int) (w : World) :
    (name = "." ∨ name = ".." →
      OpenFile h this name flags mode w =
        (.error EISDIR, { w with trace := w.trace ++ [.lock, .unlock] })) ∧
    (name = "" →
      OpenFile h this name flags mode w =
        (.error ENOENT, { w with trace := w.trace ++ [.lock, .unlock] })) ∧
    (¬ isSpecial name →
      (h.call (w.trace ++ [.lock]) (.chdir this.GetRealPath)).1 ≠ -1 →
      h.fileType (w.trace ++ [.lock, .host (.chdir this.GetRealPath)]) name
        = .ok .DIRECTORY →
      (OpenFile h this name flags mode w).1 = .error EISDIR ∧
      (OpenFile h this name flags mode w).2.trace =
        w.trace ++ [.lock, .host (.chdir this.GetRealPath), .getFileType name, .unlock]) ∧
    (∀ e ∈ newEvents w (OpenFile h this name flags mode w), isOpen e = true →
      ¬ isSpecial name ∧
      (h.call (w.trace ++ [.lock]) (.chdir this.GetRealPath)).1 ≠ -1 ∧
      ∃ t, h.fileType (w.trace ++ [.lock, .host (.chdir this.GetRealPath)]) name = .ok t ∧
        t ≠ .DIRECTORY) ∧
    (∀ t, ¬ isSpecial name →
      (h.call (w.trace ++ [.lock]) (.chdir this.GetRealPath)).1 ≠ -1 →
      h.fileType (w.trace ++ [.lock, .host (.chdir this.GetRealPath)]) name = .ok t →
      t ≠ .DIRECTORY →
      (OpenFile h this name flags mode w).2.trace =
        w.trace ++ [.lock, .host (.chdir this.GetRealPath), .getFileType name,
          .host (.open_ name flags mode), .unlock]) := by
  refine ⟨?_, ?_, ?_, ?_, ?_⟩
  · intro hn
    have hne : name ≠ "" := by rcases hn with hn | hn <;> (rw [hn]; decide)
    simp [OpenFile, RAIILock, bind_def, M.bind, setupName, hne, hn, throwInt]
  · intro hn
    simp [OpenFile, RAIILock, bind_def, M.bind, setupName, hn, throwInt]
  · intro hn hc hd
    simp only [OpenFile, RAIILock, bind_def, M.bind, setupName_of_not_special h this name _ hn,
      setup_eval, if_neg hc, GetFileType, List.append_assoc, List.cons_append,
      List.nil_append, hd]
    simp [throwInt]
  · intro e he ho
    by_cases hn : isSpecial name
    · exfalso
      have : newEvents w (OpenFile h this name flags mode w) = [.lock, .unlock] := by
        apply newEvents_append
        unfold isSpecial at hn
        rcases hn with hn | hn | hn <;>
          simp [OpenFile, RAIILock, bind_def, M.bind, setupName, hn, throwInt]
      rw [this] at he
      simp at he
      rcases he with he | he <;> simp [he, isOpen] at ho
    · refine ⟨hn, ?_⟩
      by_cases hc : (h.call (w.trace ++ [.lock]) (.chdir this.GetRealPath)).1 = -1
      · exfalso
        have : newEvents w (OpenFile h this name flags mode w) =
            [.lock, .host (.chdir this.GetRealPath), .unlock] := by
          apply newEvents_append
          simp [OpenFile, RAIILock, bind_def, M.bind, setupName_of_not_special h this name _ hn,
            setup_eval, hc]
        rw [this] at he
        simp at he
        rcases he with he | he | he <;> simp [he, isOpen] at ho
      · refine ⟨hc, ?_⟩
        cases hf : h.fileType (w.trace ++ [.lock, .host (.chdir this.GetRealPath)]) name with
        | error x =>
          exfalso
          have : newEvents w (OpenFile h this name flags mode w) =
              [.lock, .host (.chdir this.GetRealPath), .getFileType name, .unlock] := by
            apply newEvents_append
            simp [OpenFile, RAIILock, bind_def, M.bind,
              setupName_of_not_special h this name _ hn, setup_eval, hc, GetFileType, hf]
          rw [this] at he
          simp at he
          rcases he with he | he | he | he <;> simp [he, isOpen] at ho
        | ok t =>
          refine ⟨t, rfl, ?_⟩
          intro ht
          subst ht
          have : newEvents w (OpenFile h this name flags mode w) =
              [.lock, .host (.chdir this.GetRealPath), .getFileType name, .unlock] := by
            apply newEvents_append
            simp [OpenFile, RAIILock, bind_def, M.bind,
              setupName_of_not_special h this name _ hn, setup_eval, hc, GetFileType, hf,
              throwInt]
          rw [this] at he
          simp at he
          rcases he with he | he | he | he <;> simp [he, isOpen] at ho
  · intro t hn hc hf ht
    simp only [OpenFile, RAIILock, bind_def, M.bind, setupName_of_not_special h this name _ hn,
      setup_eval, if_neg hc, GetFileType, List.append_assoc, List.cons_append,
      List.nil_append, hf, if_neg ht, hostCall]
    split <;> simp [getErrno, throwInt, pure_def, M.pure, M.bind]

/-- C6, at a concrete input: on a host where every name is a directory,
opening `docs` in `/home` fails with `EISDIR` and no `open` is issued. -/
theorem OpenFile_never_opens_directory_witness :
    (OpenFile hostDir homeNode "docs" 0 0 w0).1 = .error EISDIR ∧
    (OpenFile hostDir homeNode "docs" 0 0 w0).2.trace =
      [.lock, .host (.chdir "/home"), .getFileType "docs", .unlock] :=
  (OpenFile_never_opens_directory hostDir homeNode "docs" 0 0 w0).2.2.1
    (by decide) (by decide) rfl

/-- On a host where nothing is a directory, opening `notes` in `/home`
reaches the host `open` after the scoping and the file-type query. -/
theorem OpenFile_plain_file_example :
    OpenFile hostOk homeNode "notes" 0 0 w0 =
      (.ok 0, ⟨[.lock, .host (.chdir "/home"), .getFileType "notes",
                .host (.open_ "notes" 0 0), .unlock], "/home", 0, 0⟩) :=
  rfl

/-! ## The scoping discipline -/

/-- C7 fails on `StatFile`: it takes no lock.  On a host where every call
succeeds, `StatFile("a")` on the node `/home` issues `chdir` and `lstat`
with no lock event around them, so the discipline is broken at the first
event. -/
theorem StatFile_scopes_without_lock :
    StatFile hostOk homeNode "a" w0 =
      (.ok (), ⟨[.host (.chdir "/home"), .host (.lstat "a")], "/home", 0, 0⟩) ∧
    disciplined 0 (newEvents w0 (StatFile hostOk homeNode "a" w0)) = false :=
  ⟨rfl, by decide⟩

theorem flat_nil : flat [] := by
  intro e he; simp at he

theorem flat_single_host (c : HostCall) : flat [.host c] := by
  intro e he; simp at he; subst he; simp

theorem flat_append {a b : List Event} (ha : flat a) (hb : flat b) : flat (a ++ b) := by
  intro e he
  rcases List.mem_append.mp he with h1 | h1
  · exact ha e h1
  · exact hb e h1

theorem disciplined_flat (d : Nat) (hd : 0 < d) (evs rest : List Event) (hf : flat evs) :
    disciplined d (evs ++ rest) = disciplined d rest := by
  induction evs with
  | nil => rfl
  | cons e es ih =>
    have hes : flat es := fun x hx => hf x (List.mem_cons_of_mem _ hx)
    have he := hf e (List.mem_cons_self _ _)
    cases e with
    | lock => simp at he
    | unlock => simp at he
    | host c => simp [disciplined, hd, ih hes]
    | getFileType n => simp [disciplined, hd, ih hes]

theorem AppendsFlat.pure {α : Type} (a : α) : AppendsFlat (Pure.pure a : M α) :=
  fun _ => ⟨[], by simp [pure_def, M.pure], flat_nil⟩

theorem AppendsFlat.throwInt {α : Type} (e : Nat) : AppendsFlat (throwInt e : M α) :=
  fun _ => ⟨[], by simp [LBW.throwInt], flat_nil⟩

theorem AppendsFlat.getErrno : AppendsFlat getErrno :=
  fun _ => ⟨[], by simp [LBW.getErrno], flat_nil⟩

theorem AppendsFlat.CheckError (i : Int) : AppendsFlat (CheckError i) := by
  intro w
  refine ⟨[], ?_, flat_nil⟩
  unfold LBW.CheckError
  split <;> simp

theorem AppendsFlat.hostCall (h : Host) (c : HostCall) : AppendsFlat (hostCall h c) :=
  fun _ => ⟨[.host c], by simp [LBW.hostCall], flat_single_host c⟩

theorem AppendsFlat.chdir (h : Host) (p : String) : AppendsFlat (chdir h p) :=
  fun _ => ⟨[.host (.chdir p)], by simp [LBW.chdir], flat_single_host _⟩

theorem AppendsFlat.GetFileType (h : Host) (n : String) : AppendsFlat (GetFileType h n) := by
  intro w
  refine ⟨[.getFileType n], by simp [LBW.GetFileType], ?_⟩
  intro e he; simp at he; subst he; simp

theorem AppendsFlat.bind {α β : Type} {m : M α} {f : α → M β} (hm : AppendsFlat m)
    (hf : ∀ a, AppendsFlat (f a)) : AppendsFlat (m >>= f) := by
  intro w
  obtain ⟨e1, h1, f1⟩ := hm w
  rw [bind_def]
  unfold M.bind
  cases hr : m w with
  | mk r w1 =>
    rw [hr] at h1
    cases r with
    | error e => exact ⟨e1, h1, f1⟩
    | ok a =>
      obtain ⟨e2, h2, f2⟩ := hf a w1
      refine ⟨e1 ++ e2, ?_, flat_append f1 f2⟩
      simp only [h2]
      simp at h1
      rw [h1, List.append_assoc]

theorem AppendsFlat.setup (h : Host) (this : VFSNode) : AppendsFlat (setup h this) :=
  AppendsFlat.bind (AppendsFlat.chdir h _) (fun i => AppendsFlat.CheckError i)

theorem AppendsFlat.setupName (h : Host) (this : VFSNode) (name : String) (e : Nat) :
    AppendsFlat (setupName h this name e) := by
  unfold LBW.setupName
  split
  · exact AppendsFlat.throwInt _
  · split
    · exact AppendsFlat.throwInt _
    · exact AppendsFlat.setup h this

theorem AppendsFlat.readLoop (h : Host) (es : List String) : AppendsFlat (readLoop h es) := by
  induction es with
  | nil =>
    unfold LBW.readLoop
    exact AppendsFlat.bind (AppendsFlat.hostCall h _) (fun _ => AppendsFlat.pure _)
  | cons n rest ih =>
    unfold LBW.readLoop
    exact AppendsFlat.bind (AppendsFlat.hostCall h _)
      (fun _ => AppendsFlat.bind ih (fun _ => AppendsFlat.pure _))

theorem RAIILock_disciplined {α : Type} {m : M α} (hm : AppendsFlat m) (w : World) :
    disciplined 0 (newEvents w (RAIILock m w)) = true := by
  obtain ⟨evs, h1, f1⟩ := hm { w with trace := w.trace ++ [.lock] }
  have : newEvents w (RAIILock m w) = .lock :: (evs ++ [.unlock]) := by
    apply newEvents_append
    simp only [RAIILock, h1]
    simp
  rw [this]
  show disciplined 1 (evs ++ [.unlock]) = true
  rw [disciplined_flat 1 (by decide) evs [.unlock] f1]
  rfl

theorem AppendsFlat.oracle {α : Type} (f : World → α) :
    AppendsFlat (fun w => (Except.ok (f w), w) : M α) :=
  fun _ => ⟨[], by simp, flat_nil⟩

/-- Every operation of the node other than `StatFile` that resolves a name
keeps the scoping discipline, on every host and from every world: each takes
the lock before its first host call and releases it after the last. -/
theorem locked_operations_disciplined (h : Host) (e0 : Nat) (FakeRoot : Bool)
    (this other : VFSNode) (name target : String) (flags mode dev owner group : Int)
    (times : Option (Int × Int)) (w : World) :
    disciplined 0 (newEvents w (OpenFile h this name flags mode w)) = true ∧
    disciplined 0 (newEvents w (Enumerate h this w)) = true ∧
    disciplined 0 (newEvents w (ReadLink h e0 this name w)) = true ∧
    disciplined 0 (newEvents w (MkDir h e0 this name mode w)) = true ∧
    disciplined 0 (newEvents w (RmDir h e0 this name w)) = true ∧
    disciplined 0 (newEvents w (Mknod h e0 this name mode dev w)) = true ∧
    disciplined 0 (newEvents w (Access h this name mode w)) = true ∧
    disciplined 0 (newEvents w (Rename h this name other target w)) = true ∧
    disciplined 0 (newEvents w (Chmod h this name mode w)) = true ∧
    disciplined 0 (newEvents w (Chown h FakeRoot this name owner group w)) = true ∧
    disciplined 0 (newEvents w (Link h this name other target w)) = true ∧
    disciplined 0 (newEvents w (Unlink h e0 this name w)) = true ∧
    disciplined 0 (newEvents w (Symlink h e0 this name target w)) = true ∧
    disciplined 0 (newEvents w (Utimes h this name times w)) = true := by
  have thrown : ∀ e : Nat, disciplined 0 (newEvents w ((throwInt e : M Unit) w)) = true := by
    intro e; simp [newEvents, throwInt, disciplined]
  refine ⟨?_, ?_, ?_, ?_, ?_, ?_, ?_, ?_, ?_, ?_, ?_, ?_, ?_, ?_⟩
  case refine_8 =>
    unfold Rename
    split
    · exact thrown _
    · apply RAIILock_disciplined
      exact AppendsFlat.bind (AppendsFlat.setup _ _) (fun _ =>
        AppendsFlat.bind (AppendsFlat.hostCall _ _) (fun i => by
          split
          · exact AppendsFlat.bind AppendsFlat.getErrno (fun _ => AppendsFlat.throwInt _)
          · exact AppendsFlat.pure _))
  case refine_11 =>
    unfold Link
    split
    · exact thrown _
    · apply RAIILock_disciplined
      exact AppendsFlat.bind (AppendsFlat.setup _ _) (fun _ =>
        AppendsFlat.bind (AppendsFlat.hostCall _ _) (fun i => AppendsFlat.CheckError i))
  all_goals
    apply RAIILock_disciplined
    repeat' first
      | exact AppendsFlat.setupName _ _ _ _
      | exact AppendsFlat.setup _ _
      | exact AppendsFlat.GetFileType _ _
      | exact AppendsFlat.hostCall _ _
      | exact AppendsFlat.readLoop _ _
      | exact AppendsFlat.CheckError _
      | exact AppendsFlat.throwInt _
      | exact AppendsFlat.getErrno
      | exact AppendsFlat.pure _
      | exact AppendsFlat.oracle _
      | apply AppendsFlat.bind
      | split
      | intro _

/-! ## Rename and Link: the host call -/

/-- C8 as stated fails for `Link`: creating `a` in `/home` as a link to `b`
of `/tmp` issues the host call `link("/tmp/b", "a")`, the absolute path of
the other node first and the name relative to this node second; the call
`link("a", "/tmp/b")` is not issued. -/
theorem Link_argument_order_counterexample :
    Link hostOk homeNode "a" tmpNode "b" w0 =
      (.ok (), ⟨[.lock, .host (.chdir "/home"), .host (.link "/tmp/b" "a"), .unlock],
                "/home", 0, 0⟩) ∧
    Event.host (.link "a" "/tmp/b") ∉ (Link hostOk homeNode "a" tmpNode "b" w0).2.trace :=
  ⟨rfl, by decide⟩

/-- C8, amended: for names that are none of `.`, `..` and the empty string,
`Rename` and `Link` take the lock and call `chdir` with the path of the node
they are invoked on, never with that of the other node.  When that succeeds
the working directory is that path, `Rename` issues
`rename(from, other path + "/" + to)` and `Link` issues
`link(other path + "/" + target, name)`; when it fails, no further host
call is issued and the error of `chdir` is thrown. -/
theorem Rename_Link_host_call (h : Host) (this other : VFSNode) (a b : String) (w : World)
    (ha : ¬ isSpecial a) (hb : ¬ isSpecial b) :
    ((h.call (w.trace ++ [.lock]) (.chdir this.GetRealPath)).1 ≠ -1 →
      (Rename h this a other b w).2.trace =
        w.trace ++ [.lock, .host (.chdir this.GetRealPath),
          .host (.rename a (other.GetRealPath ++ "/" ++ b)), .unlock] ∧
      (Rename h this a other b w).2.cwd = this.GetRealPath ∧
      (Link h this a other b w).2.trace =
        w.trace ++ [.lock, .host (.chdir this.GetRealPath),
          .host (.link (other.GetRealPath ++ "/" ++ b) a), .unlock] ∧
      (Link h this a other b w).2.cwd = this.GetRealPath) ∧
    ((h.call (w.trace ++ [.lock]) (.chdir this.GetRealPath)).1 = -1 →
      Rename h this a other b w =
        (.error (h.call (w.trace ++ [.lock]) (.chdir this.GetRealPath)).2,
         { w with trace := w.trace ++ [.lock, .host (.chdir this.GetRealPath), .unlock],
                  errno := (h.call (w.trace ++ [.lock]) (.chdir this.GetRealPath)).2 }) ∧
      Link h this a other b w =
        (.error (h.call (w.trace ++ [.lock]) (.chdir this.GetRealPath)).2,
         { w with trace := w.trace ++ [.lock, .host (.chdir this.GetRealPath), .unlock],
                  errno := (h.call (w.trace ++ [.lock]) (.chdir this.GetRealPath)).2 })) := by
  unfold isSpecial at ha hb
  have e1 : ¬ (a = "." ∨ a = ".." ∨ a = "" ∨ b = "." ∨ b = ".." ∨ b = "") := by tauto
  have e2 : ¬ (b = "." ∨ b = ".." ∨ b = "" ∨ a = "." ∨ a = ".." ∨ a = "") := by tauto
  constructor
  · intro hc
    simp only [Rename, Link, if_neg e1, if_neg e2, RAIILock, bind_def, M.bind, setup_eval,
      if_neg hc, hostCall, CheckError, List.append_assoc, List.cons_append, List.nil_append]
    refine ⟨?_, ?_, ?_, ?_⟩
    · split <;> simp [getErrno, throwInt, pure_def, M.pure, M.bind]
    · split <;> simp [getErrno, throwInt, pure_def, M.pure, M.bind]
    · split <;> simp
    · split <;> simp
  · intro hc
    simp [Rename, Link, if_neg e1, if_neg e2, RAIILock, bind_def, M.bind, setup_eval, hc]

/-- C8, amended, at a concrete input: `Rename` of `a` in `/home` to `b` in
`/tmp` on a host where every call succeeds. -/
theorem Rename_Link_host_call_witness :
    (Rename hostOk homeNode "a" tmpNode "b" w0).2.trace =
      [.lock, .host (.chdir "/home"), .host (.rename "a" "/tmp/b"), .unlock] ∧
    (Rename hostOk homeNode "a" tmpNode "b" w0).2.cwd = "/home" :=
  have t := (Rename_Link_host_call hostOk homeNode tmpNode "a" "b" w0
    (by decide) (by decide)).1 (by decide)
  ⟨t.1, t.2.1⟩

/-! ## Machine integers -/

theorem toSigned_of_fits_int (bits : Nat) (x : Int) (hb : 0 < bits)
    (hlo : -(2 ^ (bits - 1)) ≤ x) (hhi : x < 2 ^ (bits - 1)) : toSigned bits x = x := by
  unfold toSigned
  have hp : (2 : Int) ^ bits = 2 * 2 ^ (bits - 1) := by
    obtain ⟨k, rfl⟩ : ∃ k, bits = k + 1 := ⟨bits - 1, by omega⟩
    simp [pow_succ, mul_comm]
  have hpos : (0 : Int) < 2 ^ (bits - 1) := by positivity
  rw [Int.emod_eq_of_lt (by omega) (by omega)]
  omega

theorem toSigned_of_fits (bits : Nat) (x : Nat) (hb : 0 < bits) (hx : x < 2 ^ (bits - 1)) :
    toSigned bits (x : Int) = (x : Int) := by
  have hx1 : (x : Int) < 2 ^ (bits - 1) := by exact_mod_cast hx
  have hpos : (0 : Int) < 2 ^ (bits - 1) := by positivity
  exact toSigned_of_fits_int bits x hb (by omega) hx1

theorem two_pow_31_le (bits : Nat) (hb : 32 ≤ bits) : (2 : Int) ^ 31 ≤ 2 ^ (bits - 1) :=
  pow_le_pow_right₀ (by norm_num) (by omega)

theorem delta_us_lt (start now : timeval) : delta_us start now < 2 ^ 64 := by
  unfold delta_us
  exact Nat.mod_lt _ (by positivity)

/-! ## Clock queries -/

/-- C10 as stated fails in two ways.  For the realtime identifier `0`, when
the host `gettimeofday` returns `-1`, `compat_sys_clock_gettime` fails with
`EINVAL` and leaves the output structure as it was.  And the product of the
host microseconds with `1000` is computed in a `long`: a host answer of
`9223372036854776` microseconds on a 64-bit `long` is stored as
`-9223372036854775616`, and `3000000` microseconds on a 32-bit `long` as
`-1294967296`, neither being the microseconds times `1000`. -/
theorem clock_gettime_host_failure_counterexample :
    compat_sys_clock_gettime 32 (-1, ⟨0, 0⟩) 0 ⟨7, 7⟩ = (.error EINVAL, ⟨7, 7⟩) ∧
    compat_sys_clock_gettime 64 (0, ⟨0, 9223372036854776⟩) 0 ⟨7, 7⟩ =
      (.ok 0, ⟨0, -9223372036854775616⟩) ∧
    (-9223372036854775616 : Int) ≠ 9223372036854776 * 1000 ∧
    compat_sys_clock_gettime 32 (0, ⟨0, 3000000⟩) 0 ⟨7, 7⟩ = (.ok 0, ⟨0, -1294967296⟩) ∧
    (-1294967296 : Int) ≠ 3000000 * 1000 :=
  ⟨rfl, rfl, by decide, rfl, by decide⟩

/-- C10, amended: for every identifier other than `0` and `1` both handlers
fail with `EINVAL` and leave the output structure unchanged.  For `0` and
`1` alike, `compat_sys_clock_getres` writes `tv_sec = 0` and
`tv_nsec = 1000000000 / CLOCKS_PER_SEC` and returns `0`.  For `0` and `1`
alike, `compat_sys_clock_gettime` fails with `EINVAL` and writes nothing when
the host `gettimeofday` returns `-1`; otherwise it returns `0` and writes the
host seconds and the host microseconds times `1000` as computed in a `long`
of `lbits` bits: that is the microseconds times `1000` whenever this product
is representable in the `long`, in particular for the microsecond values
`0 ≤ tv_usec < 10^6` of a conforming host and a `long` of at least 32 bits. -/
theorem clock_handlers (lbits cps : Nat) (g : Int × timeval) (which_clock : Int)
    (lt : timespec) :
    (which_clock ≠ 0 → which_clock ≠ 1 →
      compat_sys_clock_gettime lbits g which_clock lt = (.error EINVAL, lt) ∧
      compat_sys_clock_getres cps which_clock lt = (.error EINVAL, lt)) ∧
    (which_clock = 0 ∨ which_clock = 1 →
      compat_sys_clock_getres cps which_clock lt =
        (.ok 0, ⟨0, ((1000000000 / cps : Nat) : Int)⟩) ∧
      (g.1 = -1 → compat_sys_clock_gettime lbits g which_clock lt = (.error EINVAL, lt)) ∧
      (g.1 ≠ -1 →
        compat_sys_clock_gettime lbits g which_clock lt =
          (.ok 0, ⟨g.2.tv_sec, toSigned lbits (g.2.tv_usec * 1000)⟩)) ∧
      (g.1 ≠ -1 → 0 < lbits → -(2 ^ (lbits - 1)) ≤ g.2.tv_usec * 1000 →
        g.2.tv_usec * 1000 < 2 ^ (lbits - 1) →
        compat_sys_clock_gettime lbits g which_clock lt =
          (.ok 0, ⟨g.2.tv_sec, g.2.tv_usec * 1000⟩)) ∧
      (g.1 ≠ -1 → 32 ≤ lbits → 0 ≤ g.2.tv_usec → g.2.tv_usec < 1000000 →
        compat_sys_clock_gettime lbits g which_clock lt =
          (.ok 0, ⟨g.2.tv_sec, g.2.tv_usec * 1000⟩))) := by
  constructor
  · intro h0 h1
    simp [compat_sys_clock_gettime, compat_sys_clock_getres, LINUX_CLOCK_REALTIME,
      LINUX_CLOCK_MONOTONIC, h0, h1]
  · intro hw
    have hgen : g.1 ≠ -1 →
        compat_sys_clock_gettime lbits g which_clock lt =
          (.ok 0, ⟨g.2.tv_sec, toSigned lbits (g.2.tv_usec * 1000)⟩) := by
      intro hg
      simp [compat_sys_clock_gettime, LINUX_CLOCK_REALTIME, LINUX_CLOCK_MONOTONIC, hw, hg]
    refine ⟨?_, ?_, hgen, ?_, ?_⟩
    · simp [compat_sys_clock_getres, LINUX_CLOCK_REALTIME, LINUX_CLOCK_MONOTONIC, hw]
    · intro hg
      simp [compat_sys_clock_gettime, LINUX_CLOCK_REALTIME, LINUX_CLOCK_MONOTONIC, hw, hg]
    · intro hg hb hlo hhi
      rw [hgen hg, toSigned_of_fits_int lbits _ hb hlo hhi]
    · intro hg hb h0 h1
      have h31 := two_pow_31_le lbits hb
      rw [hgen hg, toSigned_of_fits_int lbits _ (by omega) (by omega) (by omega)]

/-- C10, amended, at a concrete input: the monotonic identifier `1`, a host
reporting 5 s and 250 microseconds, a 32-bit `long` and
`CLOCKS_PER_SEC = 1000`. -/
theorem clock_handlers_witness :
    compat_sys_clock_getres 1000 1 ⟨7, 7⟩ = (.ok 0, ⟨0, 1000000⟩) ∧
    compat_sys_clock_gettime 32 (0, ⟨5, 250⟩) 1 ⟨7, 7⟩ = (.ok 0, ⟨5, 250000⟩) :=
  have t := (clock_handlers 32 1000 (0, ⟨5, 250⟩) 1 ⟨7, 7⟩).2 (Or.inr rfl)
  ⟨t.1, t.2.2.2.2 (by decide) (by decide) (by decide) (by decide)⟩

/-! ## Sleep -/

/-- C9 as stated fails when the quotient does not fit the field: with a
32-bit `time_t`, a host clock that reads 100 s before the wait and 99 s
after it gives the 64-bit difference `2^64 - 10^6`, and the handler stores
`tv_sec = -140462612`, which is not that difference divided by `10^6`. -/
theorem nanosleep_tv_sec_counterexample :
    delta_us ⟨100, 0⟩ ⟨99, 0⟩ = 18446744073708551616 ∧
    compat_sys_nanosleep 32 ⟨100, 0⟩ (fun _ => 0) 0 ⟨99, 0⟩ ⟨2, 0⟩ (some ⟨0, 0⟩) =
      (.ok 0, some ⟨-140462612, 551616000⟩) ∧
    (-140462612 : Int) ≠ ((18446744073708551616 / 1000000 : Nat) : Int) :=
  ⟨by decide, rfl, by decide⟩

/-- C9, amended: when a remaining-time location is supplied,
`compat_sys_nanosleep` writes to it, whether the wait succeeded or failed,
`tv_nsec = (delta_us mod 1000000) * 1000`, which is below `10^9`, and
`tv_sec = delta_us / 1000000` converted to the signed `time_t` of `tbits`
bits, where `delta_us` is the 64-bit unsigned difference of the two
timestamps in microseconds (their plain difference when the first is not
after the second).  Whenever the quotient is representable, that is
`delta_us < 2^(tbits-1) * 10^6`, which holds for every `delta_us` when
`time_t` has at least 46 bits, the stored `tv_sec` is `delta_us / 1000000`,
and then `tv_sec * 10^6 + tv_nsec / 1000 = delta_us`.  On every input the
handler throws the host `errno` when the wait returned `-1` and returns `0`
otherwise; with a null location nothing is written. -/
theorem nanosleep_reports_elapsed (tbits : Nat) (start now : timeval)
    (select : timeval → Int) (errno : Nat) (req old : timespec) :
    (compat_sys_nanosleep tbits start select errno now req (some old)).2 =
      some ⟨toSigned tbits ((delta_us start now / 1000000 : Nat) : Int),
            ((delta_us start now % 1000000 * 1000 : Nat) : Int)⟩ ∧
    delta_us start now % 1000000 * 1000 < 1000000000 ∧
    delta_us start now / 1000000 * 1000000 + delta_us start now % 1000000 * 1000 / 1000
      = delta_us start now ∧
    (micros start ≤ micros now → delta_us start now = micros now - micros start) ∧
    (0 < tbits → delta_us start now / 1000000 < 2 ^ (tbits - 1) →
      (compat_sys_nanosleep tbits start select errno now req (some old)).2 =
        some ⟨((delta_us start now / 1000000 : Nat) : Int),
              ((delta_us start now % 1000000 * 1000 : Nat) : Int)⟩) ∧
    (0 < tbits → delta_us start now < 2 ^ (tbits - 1) * 1000000 →
      (compat_sys_nanosleep tbits start select errno now req (some old)).2 =
        some ⟨((delta_us start now / 1000000 : Nat) : Int),
              ((delta_us start now % 1000000 * 1000 : Nat) : Int)⟩) ∧
    (46 ≤ tbits →
      (compat_sys_nanosleep tbits start select errno now req (some old)).2 =
        some ⟨((delta_us start now / 1000000 : Nat) : Int),
              ((delta_us start now % 1000000 * 1000 : Nat) : Int)⟩) ∧
    (select ⟨req.tv_sec, Int.tdiv req.tv_nsec 1000⟩ = -1 →
      (compat_sys_nanosleep tbits start select errno now req (some old)).1 = .error errno ∧
      (compat_sys_nanosleep tbits start select errno now req none).1 = .error errno) ∧
    (select ⟨req.tv_sec, Int.tdiv req.tv_nsec 1000⟩ ≠ -1 →
      (compat_sys_nanosleep tbits start select errno now req (some old)).1 = .ok 0 ∧
      (compat_sys_nanosleep tbits start select errno now req none).1 = .ok 0) ∧
    (compat_sys_nanosleep tbits start select errno now req none).2 = none := by
  have hfit : 0 < tbits → delta_us start now / 1000000 < 2 ^ (tbits - 1) →
      (compat_sys_nanosleep tbits start select errno now req (some old)).2 =
        some ⟨((delta_us start now / 1000000 : Nat) : Int),
              ((delta_us start now % 1000000 * 1000 : Nat) : Int)⟩ := by
    intro hb hq
    simp only [compat_sys_nanosleep, toSigned_of_fits tbits _ hb hq]
  refine ⟨?_, ?_, ?_, ?_, hfit, ?_, ?_, ?_, ?_, ?_⟩
  · simp only [compat_sys_nanosleep]
  · omega
  · omega
  · intro hle
    have h1 : micros now < 2 ^ 64 := by unfold micros; exact Nat.mod_lt _ (by positivity)
    unfold delta_us
    rw [show micros now + 2 ^ 64 - micros start = (micros now - micros start) + 2 ^ 64 by omega,
      Nat.add_mod_right, Nat.mod_eq_of_lt (by omega)]
  · intro hb hd
    exact hfit hb (Nat.div_lt_of_lt_mul (by rw [Nat.mul_comm]; exact hd))
  · intro hb
    apply hfit (by omega)
    have hd := delta_us_lt start now
    have h45 : 2 ^ 45 ≤ 2 ^ (tbits - 1) := Nat.pow_le_pow_right (by norm_num) (by omega)
    have hq : delta_us start now / 1000000 < 2 ^ 45 := by
      apply Nat.div_lt_of_lt_mul
      calc delta_us start now < 2 ^ 64 := hd
        _ ≤ 1000000 * 2 ^ 45 := by norm_num
    omega
  · intro hs; simp [compat_sys_nanosleep, hs]
  · intro hs; simp [compat_sys_nanosleep, hs]
  · simp [compat_sys_nanosleep]

/-- C9, amended, at a concrete input: a wait of 2 s interrupted after 1 s
(the wait returns `-1` with `errno` 4) on a 32-bit `time_t`: the location
receives 1 s and 0 ns, neither zero nor the requested 2 s, and the handler
throws 4. -/
theorem nanosleep_reports_elapsed_witness :
    (compat_sys_nanosleep 32 ⟨1000, 0⟩ (fun _ => -1) 4 ⟨1001, 0⟩ ⟨2, 0⟩ (some ⟨0, 0⟩)).2 =
      some ⟨1, 0⟩ ∧
    (compat_sys_nanosleep 32 ⟨1000, 0⟩ (fun _ => -1) 4 ⟨1001, 0⟩ ⟨2, 0⟩ (some ⟨0, 0⟩)).1 =
      .error 4 :=
  have t := nanosleep_reports_elapsed 32 ⟨1000, 0⟩ ⟨1001, 0⟩ (fun _ => -1) 4 ⟨2, 0⟩ ⟨0, 0⟩
  ⟨t.2.2.2.2.2.1 (by decide) (by decide), (t.2.2.2.2.2.2.2.1 rfl).1⟩

end LBW
